import Mathlib

/-!
Verification of the IPC bridge in `src/source/lib/python-bridge.ts`
(Chromatin-CLI).  JS strings are modelled as `List Char`; the JS builtin
`JSON.parse` is modelled as an abstract `parse : List Char → Option J`
(`some` = parse success, `none` = the call throws), since it is a host
library function, not code of this repository.
-/

namespace ChromatinCLI

/-- JS strings, modelled as lists of characters. -/
abbrev Str := List Char

/-- Model of JS `String.prototype.trim`: drop whitespace from both ends. -/
def jsTrim (s : Str) : Str :=
  ((s.dropWhile Char.isWhitespace).reverse.dropWhile Char.isWhitespace).reverse

/-- Helper for `splitNl`: prepend a non-newline character to a
(complete-lines, trailing-fragment) pair. -/
def consLine (c : Char) : List Str × Str → List Str × Str
  | ([], r) => ([], c :: r)
  | (l :: ls, r) => ((c :: l) :: ls, r)

/-- Model of `buffer.split('\n')` followed by `lines.pop() || ''`
(python-bridge.ts, `_processBuffer` lines 105-106): returns the complete
newline-terminated lines and the trailing fragment after the last newline. -/
def splitNl : Str → List Str × Str
  | [] => ([], [])
  | c :: cs =>
    if c = '\n' then ([] :: (splitNl cs).1, (splitNl cs).2)
    else consLine c (splitNl cs)

/-- One line of the framer loop body (`_processBuffer` lines 108-121):
`none` when the line is blank (`!line.trim()`) or `JSON.parse` throws,
`some v` when it parses to `v`. -/
def tryLine {J : Type} (parse : Str → Option J) (l : Str) : Option J :=
  if (jsTrim l).isEmpty then none else parse l

/-- The values the framer produces from a list of complete lines:
blank and unparseable lines are dropped. -/
def emit {J : Type} (parse : Str → Option J) (lines : List Str) : List J :=
  lines.filterMap (tryLine parse)

/-- Pure line framer: state is (buffer, values emitted so far); a chunk is
appended to the buffer (`stdout` data handler, lines 85-88), then the buffer
is split and complete lines are parsed (`_processBuffer`). -/
def feedChunk {J : Type} (parse : Str → Option J) (st : Str × List J)
    (chunk : Str) : Str × List J :=
  ((splitNl (st.1 ++ chunk)).2, st.2 ++ emit parse (splitNl (st.1 ++ chunk)).1)

/-- Feed a list of chunks to the framer in order. -/
def feedChunks {J : Type} (parse : Str → Option J) (st : Str × List J)
    (chunks : List Str) : Str × List J :=
  chunks.foldl (feedChunk parse) st

/-- The response interface (`IPCResponse`, python-bridge.ts lines 14-19).
`JSON.parse` results are cast to this interface unchecked, so every field
may be absent (`none` models a JS `undefined` field).  `J` is the type of
`data` payloads, which the bridge treats opaquely. -/
structure IPCResponse (J : Type) where
  ok : Option Bool := none
  data : Option J := none
  error : Option Str := none
  traceback : Option Str := none
deriving Repr, DecidableEq

/-- Opening brace character, written by code point. -/
def obrace : Char := Char.ofNat 123

/-- Closing brace character, written by code point. -/
def cbrace : Char := Char.ofNat 125

/-- The literal string of an empty JSON object, the `lastLine` fallback. -/
def emptyObjStr : Str := [obrace, cbrace]

/-- All lines of a string, complete ones plus the trailing fragment:
model of JS `s.split('\n')` without a `pop`. -/
def splitLines (s : Str) : List Str :=
  (splitNl s).1 ++ [(splitNl s).2]

/-- `stdout.trim().split('\n').filter(l => l.trim())`
(python-bridge.ts line 46). -/
def pythonCallLines (stdout : Str) : List Str :=
  (splitLines (jsTrim stdout)).filter (fun l => !(jsTrim l).isEmpty)

/-- `lines[lines.length - 1] || '{}'` (line 47): the last filtered line,
with the empty-object literal substituted when it is absent or falsy. -/
def lastLine (stdout : Str) : Str :=
  let l := ((pythonCallLines stdout).getLast?).getD []
  if l.isEmpty then emptyObjStr else l

/-- JS `s.slice(-500)`: the last 500 characters (the whole string when
shorter). -/
def tail500 (s : Str) : Str := s.drop (s.length - 500)

/-- JS template-literal rendering of the `close` event's exit code, which
is a number or `null`. -/
def showCode : Option Int → Str
  | none => "null".data
  | some n => (toString n).data

/-- The synthesized failure message of the `close` handler's catch branch
(python-bridge.ts lines 51-54). -/
def exitErrMsg (code : Option Int) (stdout stderr : Str) : Str :=
  "Python process exited with code ".data ++ showCode code ++
    ". stderr: ".data ++ tail500 stderr ++ ". stdout: ".data ++ tail500 stdout

/-- What `pythonCall`'s `close` handler resolves with (lines 43-56), as a
function of the exit code and the accumulated stdout and stderr. -/
def pythonCallClose {J : Type} (parse : Str → Option (IPCResponse J))
    (code : Option Int) (stdout stderr : Str) : IPCResponse J :=
  match parse (lastLine stdout) with
  | some r => r
  | none =>
    { ok := some false, data := none,
      error := some (exitErrMsg code stdout stderr), traceback := none }

/-- What `pythonCall`'s `error` handler resolves with (lines 58-60). -/
def spawnFailResp {J : Type} (msg : Str) : IPCResponse J :=
  { ok := some false, data := none,
    error := some ("Failed to spawn Python: ".data ++ msg), traceback := none }

/-- The events `pythonCall`'s handlers can observe from the child process:
stdout data, stderr data, the `close` event, the `error` event. -/
inductive PEvent where
  | out (chunk : Str)
  | err (chunk : Str)
  | close (code : Option Int)
  | error (msg : Str)
deriving Repr, DecidableEq

/-- How the promise returned by `pythonCall` has settled:
`resolvedWith` models a call of `resolve`, `rejectedWith` a call of
`reject` (which `pythonCall` never references). -/
inductive PSettle (J : Type) where
  | resolvedWith (r : IPCResponse J)
  | rejectedWith (e : Str)
deriving Repr, DecidableEq

/-- State of one `pythonCall` invocation: the `stdout` and `stderr`
accumulators (lines 32-41) and how its promise has settled, if at all. -/
structure PState (J : Type) where
  stdout : Str := []
  stderr : Str := []
  settled : Option (PSettle J) := none
deriving Repr, DecidableEq

/-- Settling a JS promise is sticky: later settle calls are ignored. -/
def settle {J : Type} (s : PState J) (v : PSettle J) : PState J :=
  match s.settled with
  | some _ => s
  | none => { s with settled := some v }

/-- One handler firing inside `pythonCall` (lines 35-61). -/
def pstep {J : Type} (parse : Str → Option (IPCResponse J)) (s : PState J) :
    PEvent → PState J
  | .out chunk => { s with stdout := s.stdout ++ chunk }
  | .err chunk => { s with stderr := s.stderr ++ chunk }
  | .close code =>
      settle s (.resolvedWith (pythonCallClose parse code s.stdout s.stderr))
  | .error msg => settle s (.resolvedWith (spawnFailResp msg))

/-- Run one `pythonCall` invocation over a sequence of process events. -/
def prun {J : Type} (parse : Str → Option (IPCResponse J))
    (events : List PEvent) : PState J :=
  events.foldl (pstep parse) {}

/-- State of a `PythonBridge` instance (python-bridge.ts lines 67-73):
`child` is whether `this.child` is non-null, `pending` the insertion-ordered
keys of the pending map, `buffer` and `nextId` as in the source.
`resolved`, `rejected` and `spawnCount` are observation logs: which pending
entry was resolved with which value, which was rejected with which message,
and how many times `start()` spawned a process. -/
structure BState (J : Type) where
  child : Bool := false
  buffer : Str := []
  pending : List Nat := []
  nextId : Nat := 1
  resolved : List (Nat × J) := []
  rejected : List (Nat × Str) := []
  spawnCount : Nat := 0
deriving Repr, DecidableEq

/-- The error message the bridge's `close` handler rejects with (line 98). -/
def closedMsg : Str := "Python process closed".data

/-- The framer loop body on bridge state (`_processBuffer` lines 108-122):
a blank or unparseable line is skipped; a parsed value resolves the oldest
pending request (`pending.keys().next().value`), if any. -/
def processLine {J : Type} (parse : Str → Option J) (s : BState J)
    (line : Str) : BState J :=
  match tryLine parse line with
  | none => s
  | some v =>
    match s.pending with
    | [] => s
    | id :: rest =>
      { s with pending := rest, resolved := s.resolved ++ [(id, v)] }

/-- `_processBuffer` (lines 104-123): split the buffer, keep the trailing
fragment as the new buffer, process each complete line. -/
def processBuffer {J : Type} (parse : Str → Option J) (s : BState J) :
    BState J :=
  (splitNl s.buffer).1.foldl (processLine parse)
    { s with buffer := (splitNl s.buffer).2 }

/-- Events on a `PythonBridge`: a `call()` by the application, a stdout
`data` event, the child's `close` event, and `stop()`. -/
inductive BEvent where
  | call
  | data (chunk : Str)
  | close
  | stop
deriving Repr, DecidableEq

/-- One event's effect on bridge state.
`call` (lines 125-137): `start()` is run first when `this.child` is null
(spawning a process and setting `child`); then a fresh id is allocated and
appended to the pending map.  `data` (lines 85-88): the chunk is appended
to the buffer and `_processBuffer` runs.  `close` (lines 96-101): every
pending entry is rejected with the connection-closed message and the map is
cleared — `this.child` is NOT reset.  `stop` (lines 139-145): when `child`
is set, the process is killed and `this.child` is set to null. -/
def step {J : Type} (parse : Str → Option J) (s : BState J) :
    BEvent → BState J
  | .call =>
    let s' := if s.child then s
      else { s with child := true, spawnCount := s.spawnCount + 1 }
    { s' with pending := s'.pending ++ [s'.nextId], nextId := s'.nextId + 1 }
  | .data chunk => processBuffer parse { s with buffer := s.buffer ++ chunk }
  | .close =>
    { s with
        pending := [],
        rejected := s.rejected ++ s.pending.map (fun i => (i, closedMsg)) }
  | .stop => if s.child then { s with child := false } else s

/-- Run a bridge from a state through a sequence of events. -/
def runTrace {J : Type} (parse : Str → Option J) (s : BState J)
    (tr : List BEvent) : BState J :=
  tr.foldl (step parse) s

/-- Resolve the oldest pending ids with a list of parsed values, as the
framer loop does over one buffer's worth of lines. -/
def applyVals {J : Type} (s : BState J) (vals : List J) : BState J :=
  { s with
      pending := s.pending.drop vals.length,
      resolved := s.resolved ++ s.pending.zip vals }

/-- Whether a process event is mere stream data (neither `close` nor
`error`). -/
def PEvent.isStream : PEvent → Bool
  | .out _ => true
  | .err _ => true
  | .close _ => false
  | .error _ => false

/-- A JSON-looking response line used by concrete witnesses. -/
def okLine : Str := obrace :: "\"ok\":true,\"data\":1".data ++ [cbrace]

/-- A concrete stand-in for `JSON.parse` (restricted to response shapes)
used by witnesses: the empty object literal parses to the all-absent
response, `okLine` to a successful response carrying payload `1`, and
everything else throws. -/
def toyParseR : Str → Option (IPCResponse Nat) := fun s =>
  if s = emptyObjStr then some {}
  else if s = okLine then some { ok := some true, data := some 1 }
  else none

/-- A concrete stand-in for `JSON.parse` on the persistent bridge's
output lines, used by witnesses: the JSON number lines `1` and `2` parse
to themselves, everything else throws. -/
def toyParseN : Str → Option Nat := fun s =>
  if s = "1".data then some 1
  else if s = "2".data then some 2
  else none

/- ### Framer lemmas -/

theorem splitNl_nil : splitNl [] = ([], []) := rfl

theorem splitNl_append (xs ys : Str) :
    splitNl (xs ++ ys) =
      ((splitNl xs).1 ++ (splitNl ((splitNl xs).2 ++ ys)).1,
        (splitNl ((splitNl xs).2 ++ ys)).2) := by
  induction xs with
  | nil => simp [splitNl]
  | cons c cs ih =>
    by_cases hc : c = '\n'
    · subst hc
      simp [splitNl, ih]
    · simp only [List.cons_append, splitNl, if_neg hc, List.append_eq]
      rw [ih]
      rcases h1 : splitNl cs with ⟨l1, r1⟩
      cases l1 with
      | nil =>
        simp only [consLine, List.nil_append]
        have hstep : splitNl ((c :: r1) ++ ys) = consLine c (splitNl (r1 ++ ys)) := by
          simp [splitNl, hc]
        rw [hstep]
        rcases h3 : splitNl (r1 ++ ys) with ⟨l3, r3⟩
        cases l3 <;> simp [consLine]
      | cons l1h l1t =>
        simp only [consLine]
        rcases h3 : splitNl (r1 ++ ys) with ⟨l3, r3⟩
        simp [consLine]

theorem emit_append {J : Type} (parse : Str → Option J) (a b : List Str) :
    emit parse (a ++ b) = emit parse a ++ emit parse b := by
  simp [emit]

theorem feedChunk_append {J : Type} (parse : Str → Option J)
    (st : Str × List J) (a b : Str) :
    feedChunk parse st (a ++ b) = feedChunk parse (feedChunk parse st a) b := by
  rcases st with ⟨buf, out⟩
  simp only [feedChunk]
  rw [← List.append_assoc buf a b, splitNl_append (buf ++ a) b, emit_append]
  simp [List.append_assoc]

/-- Feeding a nonempty partition of a byte sequence one chunk at a time is
the same as feeding the whole sequence as a single chunk. -/
theorem feedChunks_eq_flatten {J : Type} (parse : Str → Option J)
    (st : Str × List J) (c : Str) (cs : List Str) :
    feedChunks parse st (c :: cs) = feedChunk parse st (c :: cs).flatten := by
  induction cs generalizing st c with
  | nil => simp [feedChunks, feedChunk]
  | cons d ds ih =>
    have h1 : feedChunks parse st (c :: d :: ds) =
        feedChunks parse (feedChunk parse st c) (d :: ds) := rfl
    rw [h1, ih (feedChunk parse st c) d, ← feedChunk_append]
    simp [List.flatten_cons]

/- ### Bridge lemmas -/

theorem processLine_skip {J : Type} (parse : Str → Option J) (s : BState J)
    (l : Str) (h : tryLine parse l = none) : processLine parse s l = s := by
  simp [processLine, h]

theorem foldl_processLine {J : Type} (parse : Str → Option J)
    (lines : List Str) (s : BState J) :
    lines.foldl (processLine parse) s = applyVals s (emit parse lines) := by
  induction lines generalizing s with
  | nil => simp [applyVals, emit]
  | cons l ls ih =>
    simp only [List.foldl_cons, emit, List.filterMap_cons]
    cases h : tryLine parse l with
    | none =>
      rw [processLine_skip parse s l h, ih s]
      simp [emit]
    | some v =>
      cases hp : s.pending with
      | nil =>
        have h1 : processLine parse s l = s := by
          simp [processLine, h, hp]
        rw [h1, ih s]
        simp [applyVals, emit, hp]
      | cons id rest =>
        have h1 : processLine parse s l =
            { s with
                pending := rest,
                resolved := s.resolved ++ [(id, v)] } := by
          simp [processLine, h, hp]
        rw [h1, ih]
        simp [applyVals, emit, hp]

theorem step_data_eq {J : Type} (parse : Str → Option J) (s : BState J)
    (chunk : Str) :
    step parse s (.data chunk) =
      applyVals { s with buffer := (splitNl (s.buffer ++ chunk)).2 }
        (emit parse (splitNl (s.buffer ++ chunk)).1) := by
  simp only [step, processBuffer]
  exact foldl_processLine parse _ _

/- ### One-shot invoker lemmas -/

theorem prun_concat {J : Type} (parse : Str → Option (IPCResponse J))
    (tr : List PEvent) (e : PEvent) :
    prun parse (tr ++ [e]) = pstep parse (prun parse tr) e := by
  simp [prun, List.foldl_append]

theorem foldl_out {J : Type} (parse : Str → Option (IPCResponse J))
    (chunks : List Str) (s : PState J) :
    (chunks.map PEvent.out).foldl (pstep parse) s =
      { s with stdout := s.stdout ++ chunks.flatten } := by
  induction chunks generalizing s with
  | nil => simp
  | cons c cs ih =>
    simp only [List.map_cons, List.foldl_cons, pstep]
    rw [ih]
    simp [List.append_assoc]

theorem lastLine_of_concat (stdout : Str) (ls : List Str) (l : Str)
    (h : pythonCallLines stdout = ls ++ [l]) : lastLine stdout = l := by
  have hmem : l ∈ (splitLines (jsTrim stdout)).filter
      (fun x => !(jsTrim x).isEmpty) := by
    show l ∈ pythonCallLines stdout
    rw [h]
    exact List.mem_append_right ls (List.mem_singleton_self l)
  have hfilter : (!(jsTrim l).isEmpty) = true := (List.mem_filter.mp hmem).2
  have hne : l.isEmpty = false := by
    cases l with
    | nil => simp [jsTrim] at hfilter
    | cons c cs => rfl
  have hlast : (pythonCallLines stdout).getLast? = some l := by
    rw [h, List.getLast?_append_cons]
    rfl
  simp [lastLine, hlast, hne]

theorem lastLine_of_empty (stdout : Str) (h : pythonCallLines stdout = []) :
    lastLine stdout = emptyObjStr := by
  simp [lastLine, h, List.isEmpty_iff]

theorem notRejected_settle {J : Type} (s : PState J) (r : IPCResponse J)
    (h : ∀ e, s.settled ≠ some (.rejectedWith e)) :
    ∀ e, (settle s (.resolvedWith r)).settled ≠ some (.rejectedWith e) := by
  intro e
  simp only [settle]
  split
  · exact h e
  · simp

theorem notRejected_pstep {J : Type} (parse : Str → Option (IPCResponse J))
    (s : PState J) (ev : PEvent)
    (h : ∀ e, s.settled ≠ some (.rejectedWith e)) :
    ∀ e, (pstep parse s ev).settled ≠ some (.rejectedWith e) := by
  cases ev with
  | out c => simpa [pstep] using h
  | err c => simpa [pstep] using h
  | close code => exact notRejected_settle s _ h
  | error m => exact notRejected_settle s _ h

theorem notRejected_prun {J : Type} (parse : Str → Option (IPCResponse J))
    (tr : List PEvent) :
    ∀ e, (prun parse tr).settled ≠ some (.rejectedWith e) := by
  suffices h : ∀ (s : PState J),
      (∀ e, s.settled ≠ some (.rejectedWith e)) →
      ∀ e, (tr.foldl (pstep parse) s).settled ≠ some (.rejectedWith e) by
    exact h {} (by simp)
  induction tr with
  | nil => intro s hs; exact hs
  | cons ev evs ih =>
    intro s hs
    exact ih (pstep parse s ev) (notRejected_pstep parse s ev hs)

theorem settled_after_close {J : Type} (parse : Str → Option (IPCResponse J))
    (s : PState J) (code : Option Int) :
    (pstep parse s (.close code)).settled.isSome := by
  simp only [pstep, settle]
  cases hs : s.settled <;> simp [hs]

theorem settled_none_of_stream {J : Type} (parse : Str → Option (IPCResponse J)) :
    ∀ (tr : List PEvent) (s : PState J), (∀ e ∈ tr, e.isStream = true) →
      s.settled = none → (tr.foldl (pstep parse) s).settled = none := by
  intro tr
  induction tr with
  | nil => intro s _ hs; exact hs
  | cons ev evs ih =>
    intro s h hs
    have hev : ev.isStream = true := h ev (List.mem_cons_self ev evs)
    have hrest : ∀ e ∈ evs, e.isStream = true :=
      fun e he => h e (List.mem_cons_of_mem ev he)
    rw [List.foldl_cons]
    apply ih _ hrest
    cases ev with
    | out c => simpa [pstep] using hs
    | err c => simpa [pstep] using hs
    | close code => simp [PEvent.isStream] at hev
    | error m => simp [PEvent.isStream] at hev

theorem dead_events_keep_pending {J : Type} (parse : Str → Option J) :
    ∀ (tr : List BEvent) (s : BState J) (id : Nat),
      (∀ e ∈ tr, e = BEvent.call ∨ e = BEvent.stop) → id ∈ s.pending →
      id ∈ (runTrace parse s tr).pending ∧
      (runTrace parse s tr).resolved = s.resolved ∧
      (runTrace parse s tr).rejected = s.rejected := by
  intro tr
  induction tr with
  | nil => intro s id _ hid; exact ⟨hid, rfl, rfl⟩
  | cons ev evs ih =>
    intro s id h hid
    have hev := h ev (List.mem_cons_self ev evs)
    have hrest : ∀ e ∈ evs, e = BEvent.call ∨ e = BEvent.stop :=
      fun e he => h e (List.mem_cons_of_mem ev he)
    rcases hev with hev | hev <;> subst hev
    · have hmem : id ∈ (step parse s BEvent.call).pending := by
        cases hc : s.child <;> simp [step, hc, hid]
      obtain ⟨h1, h2, h3⟩ := ih (step parse s BEvent.call) id hrest hmem
      have hres : (step parse s BEvent.call).resolved = s.resolved := by
        cases hc : s.child <;> simp [step, hc]
      have hrej : (step parse s BEvent.call).rejected = s.rejected := by
        cases hc : s.child <;> simp [step, hc]
      exact ⟨h1, h2.trans hres, h3.trans hrej⟩
    · have hmem : id ∈ (step parse s BEvent.stop).pending := by
        cases hc : s.child <;> simp [step, hc, hid]
      obtain ⟨h1, h2, h3⟩ := ih (step parse s BEvent.stop) id hrest hmem
      have hres : (step parse s BEvent.stop).resolved = s.resolved := by
        cases hc : s.child <;> simp [step, hc]
      have hrej : (step parse s BEvent.stop).rejected = s.rejected := by
        cases hc : s.child <;> simp [step, hc]
      exact ⟨h1, h2.trans hres, h3.trans hrej⟩

/- ### Claim theorems -/

/-- C1: on the persistent bridge, parsed output lines resolve pending
calls strictly in FIFO order: after any stdout `data` event, the i-th
newly parsed value resolves the i-th oldest still-pending call (the
resolution log extends by exactly `pending.zip values`, never swapped),
and those calls leave the pending map front-first. -/
theorem C1_fifo_order_correlation {J : Type} (parse : Str → Option J)
    (s : BState J) (chunk : Str) :
    (step parse s (.data chunk)).resolved =
      s.resolved ++ s.pending.zip (emit parse (splitNl (s.buffer ++ chunk)).1) ∧
    (step parse s (.data chunk)).pending =
      s.pending.drop (emit parse (splitNl (s.buffer ++ chunk)).1).length := by
  rw [step_data_eq]
  exact ⟨rfl, rfl⟩

/-- C2: when the bridge's worker process closes while calls are pending,
every still-pending call is rejected with the connection-closed message
("Python process closed") and the pending map is emptied. -/
theorem C2_close_rejects_pending {J : Type} (parse : Str → Option J)
    (s : BState J) :
    (step parse s .close).pending = [] ∧
    (step parse s .close).rejected =
      s.rejected ++ s.pending.map (fun i => (i, closedMsg)) :=
  ⟨rfl, rfl⟩

/-- C3: the one-shot invoker accumulates all stdout chunks until the
process exits, splits the accumulation into lines, and resolves with the
parse of the LAST non-empty line, ignoring all earlier lines. -/
theorem C3_last_nonempty_line {J : Type}
    (parse : Str → Option (IPCResponse J)) (chunks : List Str)
    (ls : List Str) (l : Str) (r : IPCResponse J) (code : Option Int)
    (h1 : pythonCallLines chunks.flatten = ls ++ [l])
    (h2 : parse l = some r) :
    (prun parse (chunks.map PEvent.out ++ [.close code])).settled =
      some (.resolvedWith r) := by
  rw [prun_concat]
  have hout : prun parse (chunks.map PEvent.out) =
      { stdout := chunks.flatten, stderr := [], settled := none } := by
    have h := foldl_out parse chunks ({} : PState J)
    simpa [prun] using h
  have hc : pythonCallClose parse code chunks.flatten [] = r := by
    unfold pythonCallClose
    rw [lastLine_of_concat chunks.flatten ls l h1, h2]
  rw [hout]
  simp [pstep, settle, hc]

/-- C3 witness: a worker that writes a noise line and then a JSON
response line (delivered in three chunks, split mid-line) and exits 0
resolves to the parsed response. -/
theorem C3_last_nonempty_line_witness :
    (prun toyParseR
        (["noi".data, "se\n".data ++ okLine, "\n".data].map PEvent.out ++
          [.close (some 0)])).settled =
      some (.resolvedWith { ok := some true, data := some 1 }) :=
  C3_last_nonempty_line toyParseR ["noi".data, "se\n".data ++ okLine, "\n".data]
    ["noise".data] okLine { ok := some true, data := some 1 } (some 0)
    (by decide) (by decide)

/-- C4 counterexample: a worker that exits 1 with no output does NOT
yield a Response with `ok:false` and an error embedding the exit code:
the `|| '{}'` fallback parses successfully, so the result is the empty
response with no `ok` and no `error` field at all. -/
theorem C4_missing_line_counterexample :
    (pythonCallClose toyParseR (some 1) ([] : Str) ([] : Str)).ok ≠
      some false ∧
    (pythonCallClose toyParseR (some 1) ([] : Str) ([] : Str)).error =
      none := by
  decide

/-- C4 amended: when the last non-empty stdout line EXISTS but fails to
parse, the invoker resolves `ok:false` with an error embedding the exit
code and the bounded (last ≤500 character) tails of stderr and stdout;
but when stdout has no non-empty line at all, the fallback literal is
parsed instead and the invoker resolves with that parse (the empty
response), with no exit code reported. -/
theorem C4_amended_failure_response {J : Type}
    (parse : Str → Option (IPCResponse J)) (code : Option Int)
    (stdout stderr : Str) (ls : List Str) (l : Str) (r : IPCResponse J) :
    (pythonCallLines stdout = ls ++ [l] → parse l = none →
      pythonCallClose parse code stdout stderr =
        { ok := some false, data := none,
          error := some (exitErrMsg code stdout stderr), traceback := none }) ∧
    (∃ a b, exitErrMsg code stdout stderr = a ++ showCode code ++ b) ∧
    (∃ a b, exitErrMsg code stdout stderr = a ++ tail500 stderr ++ b) ∧
    (∃ a b, exitErrMsg code stdout stderr = a ++ tail500 stdout ++ b) ∧
    (pythonCallLines stdout = [] → parse emptyObjStr = some r →
      pythonCallClose parse code stdout stderr = r) := by
  refine ⟨?_, ?_, ?_, ?_, ?_⟩
  · intro h1 h2
    unfold pythonCallClose
    rw [lastLine_of_concat stdout ls l h1, h2]
  · exact ⟨"Python process exited with code ".data,
      ". stderr: ".data ++ tail500 stderr ++ ". stdout: ".data ++
        tail500 stdout,
      by simp [exitErrMsg]⟩
  · exact ⟨"Python process exited with code ".data ++ showCode code ++
        ". stderr: ".data,
      ". stdout: ".data ++ tail500 stdout, by simp [exitErrMsg]⟩
  · exact ⟨"Python process exited with code ".data ++ showCode code ++
        ". stderr: ".data ++ tail500 stderr ++ ". stdout: ".data,
      [], by simp [exitErrMsg]⟩
  · intro h1 h2
    unfold pythonCallClose
    rw [lastLine_of_empty stdout h1, h2]

/-- C4 amended witness: with an unparseable last line the synthesized
failure carries the exit-code message; with no output at all the empty
response is returned. -/
theorem C4_amended_failure_response_witness :
    pythonCallClose toyParseR (some 1) ("oops\n".data) ("bad".data) =
      { ok := some false, data := none,
        error := some (exitErrMsg (some 1) ("oops\n".data) ("bad".data)),
        traceback := none } ∧
    pythonCallClose toyParseR (some 1) ([] : Str) ([] : Str) =
      ({} : IPCResponse Nat) :=
  ⟨(C4_amended_failure_response toyParseR (some 1) ("oops\n".data)
      ("bad".data) [] ("oops".data) {}).1 (by decide) (by decide),
    (C4_amended_failure_response toyParseR (some 1) ([] : Str) ([] : Str)
      [] [] {}).2.2.2.2 (by decide) (by decide)⟩

/-- C5: the promise returned by `pythonCall` never rejects: no event
sequence produces a rejection, any `close` event settles it, and a spawn
failure (`error` event) resolves it to `ok:false` with the spawn error
text embedded in the message. -/
theorem C5_never_rejects {J : Type} (parse : Str → Option (IPCResponse J))
    (tr : List PEvent) (code : Option Int) (m : Str) :
    (∀ e, (prun parse tr).settled ≠ some (.rejectedWith e)) ∧
    (prun parse (tr ++ [.close code])).settled.isSome ∧
    (prun parse [.error m]).settled =
      some (.resolvedWith
        { ok := some false, data := none,
          error := some ("Failed to spawn Python: ".data ++ m),
          traceback := none }) := by
  refine ⟨notRejected_prun parse tr, ?_, rfl⟩
  rw [prun_concat]
  exact settled_after_close parse _ code

/-- C5 witness at concrete inputs. -/
theorem C5_never_rejects_witness :
    ((prun toyParseR [.out ("x".data)]).settled ≠
      some (.rejectedWith ("e".data))) ∧
    (prun toyParseR ([.out ("x".data)] ++ [.close (some 0)])).settled.isSome ∧
    (prun toyParseR [.error ("boom".data)]).settled =
      some (.resolvedWith
        { ok := some false, data := none,
          error := some ("Failed to spawn Python: ".data ++ "boom".data),
          traceback := none }) :=
  ⟨(C5_never_rejects toyParseR [.out ("x".data)] (some 0) ("boom".data)).1
      ("e".data),
    (C5_never_rejects toyParseR [.out ("x".data)] (some 0) ("boom".data)).2.1,
    (C5_never_rejects toyParseR [.out ("x".data)] (some 0) ("boom".data)).2.2⟩

/-- C6: the line framer is chunking-invariant: feeding any nonempty
partition of a byte sequence chunk by chunk yields exactly the parsed
values of feeding the whole sequence as one chunk — no line duplicated or
lost — and the same retained trailing fragment. -/
theorem C6_framer_chunking_invariant {J : Type} (parse : Str → Option J)
    (buf : Str) (c : Str) (cs : List Str) :
    feedChunks parse (buf, ([] : List J)) (c :: cs) =
      feedChunk parse (buf, []) (c :: cs).flatten :=
  feedChunks_eq_flatten parse (buf, []) c cs

/-- C7: a complete line that is blank or unparseable is silently
dropped by the framer loop: it resolves nothing and leaves the state
exactly as if the line had never been delivered, so subsequent lines are
parsed and correlated unchanged. -/
theorem C7_bad_line_dropped {J : Type} (parse : Str → Option J)
    (s : BState J) (pre post : List Str) (bad : Str)
    (h : tryLine parse bad = none) :
    (pre ++ bad :: post).foldl (processLine parse) s =
      (pre ++ post).foldl (processLine parse) s := by
  rw [List.foldl_append, List.foldl_append, List.foldl_cons,
    processLine_skip parse _ bad h]

/-- C7 witness: a blank line and a non-JSON line are both dropped
between two well-formed lines. -/
theorem C7_bad_line_dropped_witness :
    tryLine toyParseN (" ".data) = none ∧
    tryLine toyParseN ("oops".data) = none ∧
    (["1".data, " ".data, "2".data].foldl (processLine toyParseN)
        ({ pending := [7, 8] } : BState Nat) =
      ["1".data, "2".data].foldl (processLine toyParseN)
        ({ pending := [7, 8] } : BState Nat)) ∧
    (["1".data, "oops".data, "2".data].foldl (processLine toyParseN)
        ({ pending := [7, 8] } : BState Nat) =
      ["1".data, "2".data].foldl (processLine toyParseN)
        ({ pending := [7, 8] } : BState Nat)) :=
  ⟨by decide, by decide,
    C7_bad_line_dropped toyParseN ({ pending := [7, 8] } : BState Nat)
      ["1".data] ["2".data] (" ".data) (by decide),
    C7_bad_line_dropped toyParseN ({ pending := [7, 8] } : BState Nat)
      ["1".data] ["2".data] ("oops".data) (by decide)⟩

/-- C8 counterexample: after the worker closes unexpectedly (no `stop`),
a further `call()` neither fails nor triggers a fresh spawn: on the trace
call-close-call, the second call's id 2 sits in the pending map, the
spawn count is still 1, nothing resolved it and only the first call was
rejected. -/
theorem C8_post_close_call_counterexample :
    (runTrace toyParseN ({} : BState Nat) [.call, .close, .call]).pending =
      [2] ∧
    (runTrace toyParseN ({} : BState Nat)
        [.call, .close, .call]).spawnCount = 1 ∧
    (runTrace toyParseN ({} : BState Nat) [.call, .close, .call]).resolved =
      [] ∧
    (runTrace toyParseN ({} : BState Nat) [.call, .close, .call]).rejected =
      [(1, closedMsg)] := by
  decide

/-- C8 amended: after `stop()` has cleared the child handle a subsequent
`call()` does trigger a fresh spawn; but after a close without `stop()`
the handle stays set, so a subsequent `call()` is merely appended to the
pending map and — the process being dead, only further calls or stops can
occur — it is never resolved nor rejected: it hangs forever. -/
theorem C8_amended_post_termination {J : Type} (parse : Str → Option J)
    (s : BState J) (id : Nat) (tr : List BEvent) :
    (s.child = false → (step parse s .call).spawnCount = s.spawnCount + 1) ∧
    ((∀ e ∈ tr, e = BEvent.call ∨ e = BEvent.stop) → id ∈ s.pending →
      id ∈ (runTrace parse s tr).pending ∧
      (runTrace parse s tr).resolved = s.resolved ∧
      (runTrace parse s tr).rejected = s.rejected) := by
  constructor
  · intro hc
    simp [step, hc]
  · intro htr hid
    exact dead_events_keep_pending parse tr s id htr hid

/-- C8 amended witness: from the post-crash state of the counterexample
trace, two more calls and a stop leave id 2 pending and unresolved; and
a call on a stopped bridge spawns afresh. -/
theorem C8_amended_post_termination_witness :
    (2 ∈ (runTrace toyParseN
        (runTrace toyParseN ({} : BState Nat) [.call, .close, .call])
        [.call, .stop]).pending ∧
      (runTrace toyParseN
          (runTrace toyParseN ({} : BState Nat) [.call, .close, .call])
          [.call, .stop]).resolved =
        (runTrace toyParseN ({} : BState Nat)
          [.call, .close, .call]).resolved ∧
      (runTrace toyParseN
          (runTrace toyParseN ({} : BState Nat) [.call, .close, .call])
          [.call, .stop]).rejected =
        (runTrace toyParseN ({} : BState Nat)
          [.call, .close, .call]).rejected) ∧
    (step toyParseN ({} : BState Nat) .call).spawnCount =
      ({} : BState Nat).spawnCount + 1 :=
  ⟨(C8_amended_post_termination toyParseN
      (runTrace toyParseN ({} : BState Nat) [.call, .close, .call]) 2
      [.call, .stop]).2 (by decide) (by decide),
    (C8_amended_post_termination toyParseN ({} : BState Nat) 0 []).1 rfl⟩

/-- C9 counterexample: `pythonCall` has no timeout: if the worker never
exits (no close or error event, however much time passes and whatever
partial output arrives), the promise is still unsettled — no timeout
failure Response is ever synthesized and no forced termination exists in
the model. -/
theorem C9_no_timeout_counterexample :
    (prun toyParseR [.out ("x".data), .err ("y".data)]).settled = none := by
  decide

/-- C9 amended: `pythonCall` takes only an action and parameters — no
timeout argument — and its promise settles exclusively through the
`close` or `error` handlers: any event sequence containing only stream
data leaves it pending. -/
theorem C9_amended_no_timeout {J : Type}
    (parse : Str → Option (IPCResponse J)) (tr : List PEvent)
    (h : ∀ e ∈ tr, e.isStream = true) :
    (prun parse tr).settled = none :=
  settled_none_of_stream parse tr {} h rfl

/-- C9 amended witness. -/
theorem C9_amended_no_timeout_witness :
    (prun toyParseR [.out ("abc".data)]).settled = none :=
  C9_amended_no_timeout toyParseR [.out ("abc".data)] (by decide)

/-- C10: a line that parses while no request is pending is silently
discarded: the bridge state (pending map, resolution logs, ids) is left
completely unchanged, so the value is not queued and later calls
correlate exactly as if the line had never arrived. -/
theorem C10_unsolicited_discarded {J : Type} (parse : Str → Option J)
    (s : BState J) (line : Str) (h : s.pending = []) :
    processLine parse s line = s := by
  cases ht : tryLine parse line with
  | none => exact processLine_skip parse s line ht
  | some v => simp [processLine, ht, h]

/-- C10 witness: a parseable line arriving with nothing pending leaves
the fresh bridge state untouched. -/
theorem C10_unsolicited_discarded_witness :
    ({} : BState Nat).pending = [] ∧
    processLine toyParseN ({} : BState Nat) ("1".data) = ({} : BState Nat) :=
  ⟨rfl, C10_unsolicited_discarded toyParseN {} ("1".data) rfl⟩

end ChromatinCLI
